import Mathlib

/-!
Verification of the escrow / key-storage core of the witness-angel cryptolib
(`wacryptolib.escrow`): the write-once `DummyKeyStorage`, the lazily
provisioning `EscrowApi`, and the spec-level contracts of the asymmetric
primitives it consumes (`generate_asymmetric_keypair`,
`load_asymmetric_key_from_pem_bytestring`, RSA-OAEP wrap/unwrap,
`sign_message` / `verify_message_signature`).

Bytestrings are modelled as `List Nat`, keychain uids as `Nat`, key types and
algorithm names as `String`.  Python exceptions become an explicit error type;
a raised exception leaves the already-performed storage writes in place, so
every stateful operation returns the (possibly updated) state together with an
`Except` result.
-/

instance exceptDecEq {ε α : Type} [DecidableEq ε] [DecidableEq α] : DecidableEq (Except ε α)
  | .error e, .error f =>
      if h : e = f then isTrue (by rw [h]) else isFalse (fun c => by cases c; exact h rfl)
  | .error _, .ok _ => isFalse (fun c => by cases c)
  | .ok _, .error _ => isFalse (fun c => by cases c)
  | .ok x, .ok y =>
      if h : x = y then isTrue (by rw [h]) else isFalse (fun c => by cases c; exact h rfl)

/-- Python `str.upper()` on ASCII algorithm names, as used by the `assert`
guards of `decrypt_with_private_key`. -/
def strUpper (s : String) : String := ⟨s.data.map Char.toUpper⟩

/-- Errors raised by the escrow layer and the crypto primitives it calls.
`alreadyExists` is the `RuntimeError` of `DummyKeyStorage.set_keys`;
`unsupportedAlgorithm` is the failure of the `assert` guards of
`decrypt_with_private_key`; `decryptionError` carries the `ValueError`
message of the RSA-OAEP primitive; `incorrectSignature` is the
`ValueError("Incorrect signature")` of signature verification. -/
inductive EscrowError where
  | alreadyExists (keychain_uid : Nat) (key_type : String)
  | unsupportedAlgorithm
  | keyLoadError
  | decryptionError (msg : String)
  | incorrectSignature
deriving DecidableEq, Repr

/-- A stored asymmetric keypair: public and private key in (modelled) PEM
format, as in `KeyStorageBase.set_keys`. -/
structure KeyPair where
  public_key : List Nat
  private_key : List Nat
deriving DecidableEq, Repr

/-- The in-memory dict `_cached_keypairs` of `DummyKeyStorage`, keyed by
`(keychain_uid, key_type)`. -/
structure DummyKeyStorage where
  cached_keypairs : List ((Nat × String) × KeyPair)
deriving DecidableEq, Repr

/-- Python `dict.get` on the association list. -/
def assocGet : List ((Nat × String) × KeyPair) → Nat × String → Option KeyPair
  | [], _ => none
  | (k, v) :: rest, key => if k = key then some v else assocGet rest key

namespace DummyKeyStorage

/-- Model of `DummyKeyStorage._get_keypair`: `self._cached_keypairs.get((uid, type))`. -/
def get_keypair (s : DummyKeyStorage) (keychain_uid : Nat) (key_type : String) :
    Option KeyPair :=
  assocGet s.cached_keypairs (keychain_uid, key_type)

/-- Model of `DummyKeyStorage.set_keys`: raises `RuntimeError` when a keypair (a
non-empty, hence truthy, dict) is already cached for `(uid, type)`, otherwise
stores the pair. -/
def set_keys (s : DummyKeyStorage) (keychain_uid : Nat) (key_type : String)
    (public_key private_key : List Nat) : Except EscrowError DummyKeyStorage :=
  if (s.get_keypair keychain_uid key_type).isSome then
    .error (.alreadyExists keychain_uid key_type)
  else
    .ok ⟨((keychain_uid, key_type), ⟨public_key, private_key⟩) :: s.cached_keypairs⟩

/-- Model of `DummyKeyStorage.get_public_key`: the stored public key, or `None`. -/
def get_public_key (s : DummyKeyStorage) (keychain_uid : Nat) (key_type : String) :
    Option (List Nat) :=
  (s.get_keypair keychain_uid key_type).map KeyPair.public_key

/-- Model of `DummyKeyStorage.get_private_key`: the stored private key, or `None`. -/
def get_private_key (s : DummyKeyStorage) (keychain_uid : Nat) (key_type : String) :
    Option (List Nat) :=
  (s.get_keypair keychain_uid key_type).map KeyPair.private_key

end DummyKeyStorage

/-- Python truthiness of an optional bytestring: `None` and `b""` are falsy,
every non-empty bytestring is truthy.  This is the test
`if not has_public_key:` of `EscrowApi._ensure_keypair_exists`. -/
def pyTruthy : Option (List Nat) → Bool
  | none => false
  | some b => !b.isEmpty

/-- Modelled from the spec: `generate_asymmetric_keypair` from
`wacryptolib.key_generation` is not part of the sources; the spec only
requires that it produces a fresh serialized keypair (opaque non-empty PEM
bytes).  Freshness is supplied by a counter `n` threaded through the escrow
state; the public PEM is tagged `1` and the private PEM is tagged `2`, both
carrying the counter so that the pair match each other. -/
def generate_asymmetric_keypair (key_type : String) (n : Nat) : KeyPair :=
  ⟨[1, n], [2, n]⟩

/-- A key object obtained by deserializing a PEM bytestring: either the public
or the private half of the keypair generated at counter `n`. -/
inductive AsymKey where
  | publicKey (n : Nat)
  | privateKey (n : Nat)
deriving DecidableEq, Repr

/-- Modelled from the spec: `load_asymmetric_key_from_pem_bytestring` from
`wacryptolib.key_generation` is not part of the sources; it deserializes a PEM
bytestring into a key object, failing on malformed input. -/
def load_asymmetric_key_from_pem_bytestring : List Nat → Option AsymKey
  | [1, n] => some (.publicKey n)
  | [2, n] => some (.privateKey n)
  | _ => none

/-- RSA modulus size in bytes: every RSA-OAEP ciphertext block has exactly
this encoded length. -/
def RSA_OAEP_BLOCK_SIZE : Nat := 256

/-- Maximal plaintext chunk that fits in one RSA-OAEP block. -/
def RSA_OAEP_CHUNK_SIZE : Nat := 190

/-- The `cipherdict` structure produced by `_encrypt_via_rsa_oaep`: a list of
encrypted chunks under the key `digest_list`. -/
structure CipherDict where
  digest_list : List (List Nat)
deriving DecidableEq, Repr

/-- Modelled from the spec: one RSA-OAEP block encrypting a chunk of at most
`RSA_OAEP_CHUNK_SIZE` bytes under the public key of the keypair generated at
counter `n`.  The block records the key it was produced with, the chunk
length, and the padded chunk; its encoded length is `RSA_OAEP_BLOCK_SIZE`. -/
def encrypt_block (n : Nat) (chunk : List Nat) : List Nat :=
  n :: chunk.length :: (chunk ++ List.replicate (RSA_OAEP_BLOCK_SIZE - 2 - chunk.length) 0)

/-- Modelled from the spec: decrypting one RSA-OAEP block with the private key
of the keypair generated at counter `n`.  A block whose encoded length is not
the RSA block size fails with the documented
`ValueError("Ciphertext with incorrect length")`; a block produced under a
different keypair fails as a padding mismatch. -/
def decrypt_block (n : Nat) (block : List Nat) : Except EscrowError (List Nat) :=
  if block.length ≠ RSA_OAEP_BLOCK_SIZE then
    .error (.decryptionError "Ciphertext with incorrect length")
  else
    match block with
    | k :: len :: rest =>
        if k = n then .ok (rest.take len)
        else .error (.decryptionError "Incorrect decryption")
    | _ => .error (.decryptionError "Incorrect decryption")

/-- Split a plaintext into chunks of at most `RSA_OAEP_CHUNK_SIZE` bytes. -/
def chunk_plaintext (l : List Nat) : List (List Nat) :=
  if h : l = [] then []
  else l.take RSA_OAEP_CHUNK_SIZE :: chunk_plaintext (l.drop RSA_OAEP_CHUNK_SIZE)
termination_by l.length
decreasing_by
  simp only [List.length_drop, RSA_OAEP_CHUNK_SIZE]
  have : 0 < l.length := List.length_pos.mpr h
  omega

/-- Modelled from the spec: `_encrypt_via_rsa_oaep` from
`wacryptolib.encryption` is not part of the sources; it chunks the plaintext
and encrypts each chunk into one RSA-OAEP block, collecting the blocks into a
cipherdict. -/
def encrypt_via_rsa_oaep (n : Nat) (plaintext : List Nat) : CipherDict :=
  ⟨(chunk_plaintext plaintext).map (encrypt_block n)⟩

/-- Decrypt a list of RSA-OAEP blocks in order, concatenating the recovered
chunks; the first failing block aborts the whole decryption. -/
def decrypt_chunks (n : Nat) : List (List Nat) → Except EscrowError (List Nat)
  | [] => .ok []
  | b :: rest =>
      match decrypt_block n b with
      | .error e => .error e
      | .ok m =>
          match decrypt_chunks n rest with
          | .error e => .error e
          | .ok ms => .ok (m ++ ms)

/-- Modelled from the spec: `_decrypt_via_rsa_oaep` from
`wacryptolib.encryption` is not part of the sources; it decrypts every block
of `digest_list` and concatenates the chunks. -/
def decrypt_via_rsa_oaep (n : Nat) (cipherdict : CipherDict) :
    Except EscrowError (List Nat) :=
  decrypt_chunks n cipherdict.digest_list

/-- The signature structure returned by `sign_message`, with its `digest`
entry (the one the workflow test tampers with). -/
structure SignatureDict where
  digest : List Nat
deriving DecidableEq, Repr

/-- Modelled from the spec: `sign_message` from `wacryptolib.signature` is not
part of the sources; it deterministically produces a signature structure over
the message with the private key of the keypair generated at counter `n`. -/
def sign_message (message : List Nat) (signature_algo : String) (n : Nat) :
    SignatureDict :=
  ⟨n :: signature_algo.length :: message⟩

/-- Modelled from the spec: `verify_message_signature` from
`wacryptolib.signature` is not part of the sources; verification succeeds
exactly on the signature produced over the message by the matching private
key, and raises `ValueError("Incorrect signature")` otherwise. -/
def verify_message_signature (message : List Nat) (signature : SignatureDict)
    (n : Nat) (signature_algo : String) : Except EscrowError Unit :=
  if signature.digest = n :: signature_algo.length :: message then .ok ()
  else .error .incorrectSignature

/-- The state of an `EscrowApi` over a `DummyKeyStorage`: the storage plus the
freshness counter feeding keypair generation. -/
structure EscrowState where
  key_storage : DummyKeyStorage
  rng : Nat
deriving DecidableEq, Repr

namespace EscrowApi

/-- Model of `EscrowApi._ensure_keypair_exists`: fetch the public key; when it is falsy
(absent or empty bytes) generate a keypair and store it via `set_keys`.  A
`set_keys` failure propagates, leaving the storage unchanged. -/
def ensure_keypair_exists (st : EscrowState) (keychain_uid : Nat)
    (key_type : String) : EscrowState × Option EscrowError :=
  let has_public_key := st.key_storage.get_public_key keychain_uid key_type
  if pyTruthy has_public_key then (st, none)
  else
    let keypair := generate_asymmetric_keypair key_type st.rng
    match st.key_storage.set_keys keychain_uid key_type
        keypair.public_key keypair.private_key with
    | .error e => (st, some e)
    | .ok s2 => (⟨s2, st.rng + 1⟩, none)

/-- Model of `EscrowApi.get_public_key`: ensure a keypair exists, then return the
stored public key. -/
def get_public_key (st : EscrowState) (keychain_uid : Nat) (key_type : String) :
    EscrowState × Except EscrowError (Option (List Nat)) :=
  match ensure_keypair_exists st keychain_uid key_type with
  | (st1, some e) => (st1, .error e)
  | (st1, none) => (st1, .ok (st1.key_storage.get_public_key keychain_uid key_type))

/-- Model of `EscrowApi.get_message_signature`: ensure a keypair exists, load the
private key from its PEM bytestring, and sign the message with it. -/
def get_message_signature (st : EscrowState) (keychain_uid : Nat)
    (message : List Nat) (key_type : String) (signature_algo : String) :
    EscrowState × Except EscrowError SignatureDict :=
  match ensure_keypair_exists st keychain_uid key_type with
  | (st1, some e) => (st1, .error e)
  | (st1, none) =>
      match st1.key_storage.get_private_key keychain_uid key_type with
      | none => (st1, .error .keyLoadError)
      | some pem =>
          match load_asymmetric_key_from_pem_bytestring pem with
          | some (.privateKey n) =>
              (st1, .ok (sign_message message signature_algo n))
          | _ => (st1, .error .keyLoadError)

/-- Model of `EscrowApi.decrypt_with_private_key`: assert that the key type is RSA and
the encryption algorithm is RSA-OAEP (the only supported pair), ensure a
keypair exists, load the private key, and decrypt the cipherdict. -/
def decrypt_with_private_key (st : EscrowState) (keychain_uid : Nat)
    (key_type : String) (encryption_algo : String) (cipherdict : CipherDict) :
    EscrowState × Except EscrowError (List Nat) :=
  if strUpper key_type ≠ "RSA" then (st, .error .unsupportedAlgorithm)
  else if strUpper encryption_algo ≠ "RSA_OAEP" then (st, .error .unsupportedAlgorithm)
  else
    match ensure_keypair_exists st keychain_uid key_type with
    | (st1, some e) => (st1, .error e)
    | (st1, none) =>
        match st1.key_storage.get_private_key keychain_uid key_type with
        | none => (st1, .error .keyLoadError)
        | some pem =>
            match load_asymmetric_key_from_pem_bytestring pem with
            | some (.privateKey n) =>
                match decrypt_via_rsa_oaep n cipherdict with
                | .error e => (st1, .error e)
                | .ok m => (st1, .ok m)
            | _ => (st1, .error .keyLoadError)

end EscrowApi

/-- A keypair as produced by `generate_asymmetric_keypair` at some counter. -/
def IsGenerated (kp : KeyPair) : Prop :=
  ∃ n, kp.public_key = [1, n] ∧ kp.private_key = [2, n]

/-- A storage in which every cached keypair came out of
`generate_asymmetric_keypair` (matching serialized halves). -/
def WellFormed (s : DummyKeyStorage) : Prop :=
  ∀ uid kt kp, s.get_keypair uid kt = some kp → IsGenerated kp

/-- The empty escrow state: empty key storage, generation counter zero. -/
def initialState : EscrowState := ⟨⟨[]⟩, 0⟩

/-- The operations a client can run against the key storage and the escrow
api. -/
inductive EscrowOp where
  | setKeys (keychain_uid : Nat) (key_type : String)
      (public_key private_key : List Nat)
  | getPublicKey (keychain_uid : Nat) (key_type : String)
  | getPrivateKey (keychain_uid : Nat) (key_type : String)
  | apiGetPublicKey (keychain_uid : Nat) (key_type : String)
  | apiGetMessageSignature (keychain_uid : Nat) (message : List Nat)
      (key_type signature_algo : String)
  | apiDecryptWithPrivateKey (keychain_uid : Nat)
      (key_type encryption_algo : String) (cipherdict : CipherDict)

/-- Run one operation, keeping the state it leaves behind; a raised exception
leaves all storage writes already performed in place, and a failed `set_keys`
writes nothing. -/
def runOp (st : EscrowState) : EscrowOp → EscrowState
  | .setKeys uid kt pub priv =>
      match st.key_storage.set_keys uid kt pub priv with
      | .ok s1 => ⟨s1, st.rng⟩
      | .error _ => st
  | .getPublicKey _ _ => st
  | .getPrivateKey _ _ => st
  | .apiGetPublicKey uid kt => (EscrowApi.get_public_key st uid kt).1
  | .apiGetMessageSignature uid msg kt algo =>
      (EscrowApi.get_message_signature st uid msg kt algo).1
  | .apiDecryptWithPrivateKey uid kt algo cd =>
      (EscrowApi.decrypt_with_private_key st uid kt algo cd).1

/-- Run a sequence of operations. -/
def runOps (st : EscrowState) : List EscrowOp → EscrowState
  | [] => st
  | op :: ops => runOps (runOp st op) ops

/-- The storage maps each `(keychain_uid, key_type)` to at most one cached
keypair. -/
def KeysNodup (s : DummyKeyStorage) : Prop :=
  (s.cached_keypairs.map Prod.fst).Nodup

/-! ### Basic storage lemmas -/

theorem assocGet_cons_self (k : Nat × String) (v : KeyPair)
    (rest : List ((Nat × String) × KeyPair)) :
    assocGet ((k, v) :: rest) k = some v := by
  simp [assocGet]

theorem assocGet_cons_ne (k key : Nat × String) (v : KeyPair)
    (rest : List ((Nat × String) × KeyPair)) (h : k ≠ key) :
    assocGet ((k, v) :: rest) key = assocGet rest key := by
  simp [assocGet, h]

theorem set_keys_ok_iff (s s1 : DummyKeyStorage) (uid : Nat) (kt : String)
    (pub priv : List Nat) :
    s.set_keys uid kt pub priv = .ok s1 ↔
      s.get_keypair uid kt = none ∧
        s1 = ⟨((uid, kt), ⟨pub, priv⟩) :: s.cached_keypairs⟩ := by
  unfold DummyKeyStorage.set_keys
  cases h : s.get_keypair uid kt with
  | none => simp [h]; constructor
            · intro he; exact he.symm
            · intro he; exact he.symm
  | some kp => simp [h]

theorem set_keys_error_of_isSome (s : DummyKeyStorage) (uid : Nat) (kt : String)
    (pub priv : List Nat) (h : (s.get_keypair uid kt).isSome) :
    s.set_keys uid kt pub priv = .error (.alreadyExists uid kt) := by
  unfold DummyKeyStorage.set_keys
  simp [h]

theorem get_keypair_after_set (s s1 : DummyKeyStorage) (uid : Nat) (kt : String)
    (pub priv : List Nat) (h : s.set_keys uid kt pub priv = .ok s1) :
    s1.get_keypair uid kt = some ⟨pub, priv⟩ := by
  obtain ⟨-, rfl⟩ := (set_keys_ok_iff s s1 uid kt pub priv).mp h
  exact assocGet_cons_self _ _ _

theorem get_keypair_after_set_other (s s1 : DummyKeyStorage) (uid : Nat)
    (kt : String) (pub priv : List Nat) (uid2 : Nat) (kt2 : String)
    (h : s.set_keys uid kt pub priv = .ok s1) (hne : (uid, kt) ≠ (uid2, kt2)) :
    s1.get_keypair uid2 kt2 = s.get_keypair uid2 kt2 := by
  obtain ⟨-, rfl⟩ := (set_keys_ok_iff s s1 uid kt pub priv).mp h
  exact assocGet_cons_ne _ _ _ _ hne

/-! ### Behaviour of `_ensure_keypair_exists` -/

/-- Trichotomy on the state seen by `_ensure_keypair_exists`: a truthy stored
public key (no-op), an absent keypair (generate and insert), or a stored but
empty public key (generation attempted, `set_keys` raises). -/
theorem ensure_keypair_exists_cases (st : EscrowState) (uid : Nat) (kt : String) :
    (∃ kp, st.key_storage.get_keypair uid kt = some kp ∧ kp.public_key ≠ [] ∧
      EscrowApi.ensure_keypair_exists st uid kt = (st, none)) ∨
    (st.key_storage.get_keypair uid kt = none ∧
      EscrowApi.ensure_keypair_exists st uid kt =
        (⟨⟨((uid, kt), generate_asymmetric_keypair kt st.rng) ::
            st.key_storage.cached_keypairs⟩, st.rng + 1⟩, none)) ∨
    (∃ kp, st.key_storage.get_keypair uid kt = some kp ∧ kp.public_key = [] ∧
      EscrowApi.ensure_keypair_exists st uid kt =
        (st, some (.alreadyExists uid kt))) := by
  unfold EscrowApi.ensure_keypair_exists
  cases h : st.key_storage.get_keypair uid kt with
  | none =>
      refine Or.inr (Or.inl ⟨rfl, ?_⟩)
      have hpub : st.key_storage.get_public_key uid kt = none := by
        simp [DummyKeyStorage.get_public_key, h]
      have hset : st.key_storage.set_keys uid kt
          (generate_asymmetric_keypair kt st.rng).public_key
          (generate_asymmetric_keypair kt st.rng).private_key =
          .ok ⟨((uid, kt), generate_asymmetric_keypair kt st.rng) ::
            st.key_storage.cached_keypairs⟩ := by
        rw [set_keys_ok_iff]
        exact ⟨h, rfl⟩
      simp [hpub, pyTruthy, hset]
  | some kp =>
      by_cases hemp : kp.public_key = []
      · refine Or.inr (Or.inr ⟨kp, rfl, hemp, ?_⟩)
        have hpub : st.key_storage.get_public_key uid kt = some kp.public_key := by
          simp [DummyKeyStorage.get_public_key, h]
        have hset : st.key_storage.set_keys uid kt
            (generate_asymmetric_keypair kt st.rng).public_key
            (generate_asymmetric_keypair kt st.rng).private_key =
            .error (.alreadyExists uid kt) :=
          set_keys_error_of_isSome _ _ _ _ _ (by simp [h])
        simp [hpub, pyTruthy, hemp, hset]
      · refine Or.inl ⟨kp, rfl, hemp, ?_⟩
        have hpub : st.key_storage.get_public_key uid kt = some kp.public_key := by
          simp [DummyKeyStorage.get_public_key, h]
        simp [hpub, pyTruthy, hemp]

theorem ensure_keypair_exists_of_truthy (st : EscrowState) (uid : Nat)
    (kt : String) (kp : KeyPair) (h : st.key_storage.get_keypair uid kt = some kp)
    (hne : kp.public_key ≠ []) :
    EscrowApi.ensure_keypair_exists st uid kt = (st, none) := by
  rcases ensure_keypair_exists_cases st uid kt with
    ⟨kp2, h2, -, he⟩ | ⟨h2, -⟩ | ⟨kp2, h2, hemp, -⟩
  · exact he
  · rw [h] at h2; cases h2
  · rw [h] at h2; cases h2; exact absurd hemp hne

theorem ensure_keypair_exists_of_none (st : EscrowState) (uid : Nat)
    (kt : String) (h : st.key_storage.get_keypair uid kt = none) :
    EscrowApi.ensure_keypair_exists st uid kt =
      (⟨⟨((uid, kt), generate_asymmetric_keypair kt st.rng) ::
          st.key_storage.cached_keypairs⟩, st.rng + 1⟩, none) := by
  rcases ensure_keypair_exists_cases st uid kt with
    ⟨kp2, h2, -, -⟩ | ⟨-, he⟩ | ⟨kp2, h2, -, -⟩
  · rw [h] at h2; cases h2
  · exact he
  · rw [h] at h2; cases h2

theorem ensure_keypair_exists_of_empty (st : EscrowState) (uid : Nat)
    (kt : String) (kp : KeyPair) (h : st.key_storage.get_keypair uid kt = some kp)
    (hemp : kp.public_key = []) :
    EscrowApi.ensure_keypair_exists st uid kt =
      (st, some (.alreadyExists uid kt)) := by
  rcases ensure_keypair_exists_cases st uid kt with
    ⟨kp2, h2, hne, -⟩ | ⟨h2, -⟩ | ⟨kp2, h2, -, he⟩
  · rw [h] at h2; cases h2; exact absurd hemp hne
  · rw [h] at h2; cases h2
  · exact he

/-- After a successful `_ensure_keypair_exists`, a keypair with a non-empty
public key is stored for the pair; it is either the pre-existing one or the
freshly generated one. -/
theorem ensure_keypair_exists_ok_spec (st st1 : EscrowState) (uid : Nat)
    (kt : String) (h : EscrowApi.ensure_keypair_exists st uid kt = (st1, none)) :
    ∃ kp, st1.key_storage.get_keypair uid kt = some kp ∧ kp.public_key ≠ [] ∧
      (st.key_storage.get_keypair uid kt = some kp ∨
        kp = generate_asymmetric_keypair kt st.rng) := by
  rcases ensure_keypair_exists_cases st uid kt with
    ⟨kp, h2, hne, he⟩ | ⟨h2, he⟩ | ⟨kp, h2, hemp, he⟩
  · rw [he] at h; cases h
    exact ⟨kp, h2, hne, Or.inl h2⟩
  · rw [he] at h; cases h
    refine ⟨generate_asymmetric_keypair kt st.rng, ?_, ?_, Or.inr rfl⟩
    · exact assocGet_cons_self _ _ _
    · simp [generate_asymmetric_keypair]
  · rw [he] at h; cases h

/-! ### Well-formed storages: every stored pair was produced by generation -/

theorem wellFormed_after_ensure (st st1 : EscrowState) (uid : Nat) (kt : String)
    (hwf : WellFormed st.key_storage)
    (h : EscrowApi.ensure_keypair_exists st uid kt = (st1, none)) :
    WellFormed st1.key_storage := by
  rcases ensure_keypair_exists_cases st uid kt with
    ⟨kp, h2, hne, he⟩ | ⟨h2, he⟩ | ⟨kp, h2, hemp, he⟩
  · rw [he] at h; cases h; exact hwf
  · rw [he] at h; cases h
    intro uid2 kt2 kp2 hget
    by_cases hk : ((uid, kt) : Nat × String) = (uid2, kt2)
    · rw [DummyKeyStorage.get_keypair] at hget
      simp only at hget
      rw [← hk, assocGet_cons_self] at hget
      cases hget
      exact ⟨st.rng, rfl, rfl⟩
    · rw [DummyKeyStorage.get_keypair] at hget
      simp only at hget
      rw [assocGet_cons_ne _ _ _ _ hk] at hget
      exact hwf uid2 kt2 kp2 hget
  · rw [he] at h; cases h

/-- Successful `EscrowApi.get_public_key` on a well-formed state: the returned
value is the public half `[1, n]` of the keypair stored afterwards, whose
private half is `[2, n]`, and the state stays well-formed. -/
theorem api_get_public_key_ok_spec (st st1 : EscrowState) (uid : Nat)
    (kt : String) (pk : Option (List Nat)) (hwf : WellFormed st.key_storage)
    (h : EscrowApi.get_public_key st uid kt = (st1, .ok pk)) :
    ∃ n, pk = some [1, n] ∧
      st1.key_storage.get_keypair uid kt = some ⟨[1, n], [2, n]⟩ ∧
      WellFormed st1.key_storage := by
  unfold EscrowApi.get_public_key at h
  cases he : EscrowApi.ensure_keypair_exists st uid kt with
  | mk st2 eopt =>
      cases eopt with
      | some e => rw [he] at h; cases h
      | none =>
          rw [he] at h
          cases h
          have hwf1 : WellFormed st1.key_storage := wellFormed_after_ensure st st1 uid kt hwf he
          obtain ⟨kp, hget, hne, -⟩ := ensure_keypair_exists_ok_spec st st1 uid kt he
          obtain ⟨n, hpub, hpriv⟩ := hwf1 uid kt kp hget
          refine ⟨n, ?_, ?_, hwf1⟩
          · simp [DummyKeyStorage.get_public_key, hget, hpub]
          · rw [hget]
            cases kp
            simp only at hpub hpriv
            rw [hpub, hpriv]

/-- Successful `EscrowApi.get_public_key` returns exactly the (truthy) public
key stored for the pair in the resulting state. -/
theorem api_get_public_key_ok_stored (st st1 : EscrowState) (uid : Nat)
    (kt : String) (pk : Option (List Nat))
    (h : EscrowApi.get_public_key st uid kt = (st1, .ok pk)) :
    ∃ kp, st1.key_storage.get_keypair uid kt = some kp ∧
      kp.public_key ≠ [] ∧ pk = some kp.public_key := by
  unfold EscrowApi.get_public_key at h
  cases he : EscrowApi.ensure_keypair_exists st uid kt with
  | mk st2 eopt =>
      cases eopt with
      | some e => rw [he] at h; cases h
      | none =>
          rw [he] at h
          cases h
          obtain ⟨kp, hget, hne, -⟩ := ensure_keypair_exists_ok_spec st st1 uid kt he
          refine ⟨kp, hget, hne, ?_⟩
          simp [DummyKeyStorage.get_public_key, hget]

/-- C2: lazy provisioning — when the store holds no keypair for the pair,
`EscrowApi.get_public_key` generates the keypair at the current counter,
persists it via `set_keys`, returns its public key, and afterwards the store
holds exactly that keypair. -/
theorem claim_C2_lazy_provisioning (st : EscrowState) (uid : Nat) (kt : String)
    (h : st.key_storage.get_keypair uid kt = none) :
    ∃ s1 : DummyKeyStorage,
      st.key_storage.set_keys uid kt
          (generate_asymmetric_keypair kt st.rng).public_key
          (generate_asymmetric_keypair kt st.rng).private_key = .ok s1 ∧
      EscrowApi.get_public_key st uid kt =
        (⟨s1, st.rng + 1⟩,
          .ok (some (generate_asymmetric_keypair kt st.rng).public_key)) ∧
      s1.get_keypair uid kt = some (generate_asymmetric_keypair kt st.rng) := by
  refine ⟨⟨((uid, kt), generate_asymmetric_keypair kt st.rng) ::
    st.key_storage.cached_keypairs⟩, ?_, ?_, ?_⟩
  · rw [set_keys_ok_iff]
    exact ⟨h, rfl⟩
  · unfold EscrowApi.get_public_key
    rw [ensure_keypair_exists_of_none st uid kt h]
    simp [DummyKeyStorage.get_public_key, DummyKeyStorage.get_keypair,
      assocGet_cons_self, generate_asymmetric_keypair]
  · exact assocGet_cons_self _ _ _

theorem claim_C2_witness :
    (DummyKeyStorage.get_keypair ⟨[]⟩ 7 "RSA" = none) ∧
    (∃ s1 : DummyKeyStorage,
      DummyKeyStorage.set_keys ⟨[]⟩ 7 "RSA"
          (generate_asymmetric_keypair "RSA" 0).public_key
          (generate_asymmetric_keypair "RSA" 0).private_key = .ok s1 ∧
      EscrowApi.get_public_key initialState 7 "RSA" =
        (⟨s1, 1⟩, .ok (some (generate_asymmetric_keypair "RSA" 0).public_key)) ∧
      s1.get_keypair 7 "RSA" = some (generate_asymmetric_keypair "RSA" 0)) :=
  ⟨rfl, claim_C2_lazy_provisioning initialState 7 "RSA" rfl⟩

/-- C3: lazy provisioning determinism — after a successful
`EscrowApi.get_public_key` call, calling it again for the same pair succeeds,
returns the same public key bytes, and changes nothing (no keypair
regeneration, no `set_keys` write). -/
theorem claim_C3_provisioning_deterministic (st st1 : EscrowState)
    (uid : Nat) (kt : String) (pk1 : Option (List Nat))
    (h1 : EscrowApi.get_public_key st uid kt = (st1, .ok pk1)) :
    EscrowApi.get_public_key st1 uid kt = (st1, .ok pk1) := by
  obtain ⟨kp, hget, hne, rfl⟩ := api_get_public_key_ok_stored st st1 uid kt pk1 h1
  have he : EscrowApi.ensure_keypair_exists st1 uid kt = (st1, none) :=
    ensure_keypair_exists_of_truthy st1 uid kt kp hget hne
  unfold EscrowApi.get_public_key
  rw [he]
  show (st1, Except.ok (st1.key_storage.get_public_key uid kt)) =
    (st1, Except.ok (some kp.public_key))
  have hpk : st1.key_storage.get_public_key uid kt = some kp.public_key := by
    simp [DummyKeyStorage.get_public_key, hget]
  rw [hpk]

theorem claim_C3_witness :
    (EscrowApi.get_public_key initialState 0 "RSA" =
      (⟨⟨[((0, "RSA"), ⟨[1, 0], [2, 0]⟩)]⟩, 1⟩, .ok (some [1, 0]))) ∧
    (EscrowApi.get_public_key ⟨⟨[((0, "RSA"), ⟨[1, 0], [2, 0]⟩)]⟩, 1⟩ 0 "RSA" =
      (⟨⟨[((0, "RSA"), ⟨[1, 0], [2, 0]⟩)]⟩, 1⟩, .ok (some [1, 0]))) :=
  ⟨by decide,
    claim_C3_provisioning_deterministic initialState _ 0 "RSA" _ (by decide)⟩

/-- C5: key-storage reads are total and faithful — after a successful
`set_keys`, `get_public_key` and `get_private_key` return exactly the stored
bytes, and on a pair never stored both return the explicit absence value
`none` (the reads are total functions, never raising). -/
theorem claim_C5_reads_faithful (s s1 : DummyKeyStorage) (uid : Nat)
    (kt : String) :
    (∀ pub priv, s.set_keys uid kt pub priv = .ok s1 →
      s1.get_public_key uid kt = some pub ∧
        s1.get_private_key uid kt = some priv) ∧
    (s.get_keypair uid kt = none →
      s.get_public_key uid kt = none ∧ s.get_private_key uid kt = none) := by
  constructor
  · intro pub priv h
    have := get_keypair_after_set s s1 uid kt pub priv h
    constructor
    · simp [DummyKeyStorage.get_public_key, this]
    · simp [DummyKeyStorage.get_private_key, this]
  · intro h
    constructor
    · simp [DummyKeyStorage.get_public_key, h]
    · simp [DummyKeyStorage.get_private_key, h]

theorem claim_C5_witness :
    (DummyKeyStorage.set_keys ⟨[]⟩ 0 "RSA" [5] [6] =
      .ok ⟨[((0, "RSA"), ⟨[5], [6]⟩)]⟩) ∧
    (DummyKeyStorage.get_public_key ⟨[((0, "RSA"), ⟨[5], [6]⟩)]⟩ 0 "RSA" =
        some [5] ∧
      DummyKeyStorage.get_private_key ⟨[((0, "RSA"), ⟨[5], [6]⟩)]⟩ 0 "RSA" =
        some [6]) ∧
    (DummyKeyStorage.get_public_key ⟨[]⟩ 0 "RSA" = none ∧
      DummyKeyStorage.get_private_key ⟨[]⟩ 0 "RSA" = none) :=
  ⟨by decide,
    (claim_C5_reads_faithful ⟨[]⟩ ⟨[((0, "RSA"), ⟨[5], [6]⟩)]⟩ 0 "RSA").1
      [5] [6] (by decide),
    (claim_C5_reads_faithful ⟨[]⟩ ⟨[((0, "RSA"), ⟨[5], [6]⟩)]⟩ 0 "RSA").2 rfl⟩

/-- C6: unsupported-algorithm rejection — when the key type is not RSA or the
encryption algorithm is not RSA-OAEP, `decrypt_with_private_key` fails with
the unsupported-algorithm error and the state is untouched (no keypair
provisioning, no decryption). -/
theorem claim_C6_unsupported_algorithm (st : EscrowState) (uid : Nat)
    (kt algo : String) (cd : CipherDict)
    (h : strUpper kt ≠ "RSA" ∨ strUpper algo ≠ "RSA_OAEP") :
    EscrowApi.decrypt_with_private_key st uid kt algo cd =
      (st, .error .unsupportedAlgorithm) := by
  unfold EscrowApi.decrypt_with_private_key
  rcases h with h | h
  · simp [h]
  · by_cases h2 : strUpper kt = "RSA"
    · simp [h2, h]
    · simp [h2]

theorem claim_C6_witness :
    (strUpper "DSA" ≠ "RSA" ∨ strUpper "RSA_OAEP" ≠ "RSA_OAEP") ∧
    EscrowApi.decrypt_with_private_key initialState 3 "DSA" "RSA_OAEP" ⟨[]⟩ =
      (initialState, .error .unsupportedAlgorithm) :=
  ⟨Or.inl (by decide),
    claim_C6_unsupported_algorithm initialState 3 "DSA" "RSA_OAEP" ⟨[]⟩
      (Or.inl (by decide))⟩

/-- C10: empty-key conflation — when the store holds a keypair whose public
key is the empty bytestring, every `EscrowApi` operation treats the pair as
absent (truthiness test), attempts to generate and store a fresh keypair, and
therefore fails with the storage already-exists error instead of returning the
stored empty public key; the state is left unchanged. -/
theorem claim_C10_empty_key_conflation (st : EscrowState) (uid : Nat)
    (kt : String) (kp : KeyPair)
    (h : st.key_storage.get_keypair uid kt = some kp)
    (hemp : kp.public_key = []) :
    EscrowApi.get_public_key st uid kt =
      (st, .error (.alreadyExists uid kt)) ∧
    (∀ msg algo, EscrowApi.get_message_signature st uid msg kt algo =
      (st, .error (.alreadyExists uid kt))) ∧
    (∀ algo cd, strUpper kt = "RSA" → strUpper algo = "RSA_OAEP" →
      EscrowApi.decrypt_with_private_key st uid kt algo cd =
        (st, .error (.alreadyExists uid kt))) := by
  have he := ensure_keypair_exists_of_empty st uid kt kp h hemp
  refine ⟨?_, ?_, ?_⟩
  · unfold EscrowApi.get_public_key
    rw [he]
  · intro msg algo
    unfold EscrowApi.get_message_signature
    rw [he]
  · intro algo cd h1 h2
    unfold EscrowApi.decrypt_with_private_key
    rw [if_neg (fun hc => hc h1), if_neg (fun hc => hc h2), he]

theorem claim_C10_witness :
    (DummyKeyStorage.get_keypair ⟨[((7, "RSA"), ⟨[], [2, 0]⟩)]⟩ 7 "RSA" =
      some ⟨[], [2, 0]⟩) ∧
    ([] : List Nat) = [] ∧
    EscrowApi.get_public_key ⟨⟨[((7, "RSA"), ⟨[], [2, 0]⟩)]⟩, 5⟩ 7 "RSA" =
      (⟨⟨[((7, "RSA"), ⟨[], [2, 0]⟩)]⟩, 5⟩, .error (.alreadyExists 7 "RSA")) :=
  ⟨by decide, rfl,
    (claim_C10_empty_key_conflation ⟨⟨[((7, "RSA"), ⟨[], [2, 0]⟩)]⟩, 5⟩ 7 "RSA"
      ⟨[], [2, 0]⟩ (by decide) rfl).1⟩

/-! ### RSA-OAEP round-trip -/

theorem decrypt_encrypt_block (n : Nat) (chunk : List Nat)
    (h : chunk.length ≤ RSA_OAEP_BLOCK_SIZE - 2) :
    decrypt_block n (encrypt_block n chunk) = .ok chunk := by
  have hlen : (encrypt_block n chunk).length = RSA_OAEP_BLOCK_SIZE := by
    simp only [encrypt_block, List.length_cons, List.length_append,
      List.length_replicate]
    simp only [RSA_OAEP_BLOCK_SIZE] at h ⊢
    omega
  unfold decrypt_block
  rw [if_neg (not_not_intro hlen)]
  unfold encrypt_block
  simp only [eq_self_iff_true, if_true]
  exact congrArg Except.ok (List.take_left' rfl)

theorem decrypt_chunks_map_encrypt (n : Nat) (m : List Nat) :
    decrypt_chunks n ((chunk_plaintext m).map (encrypt_block n)) = .ok m := by
  by_cases h : m = []
  · subst h
    rw [chunk_plaintext]
    simp [decrypt_chunks]
  · rw [chunk_plaintext]
    simp only [h, dite_false, List.map_cons]
    have htake : (m.take RSA_OAEP_CHUNK_SIZE).length ≤ RSA_OAEP_BLOCK_SIZE - 2 := by
      simp only [List.length_take, RSA_OAEP_CHUNK_SIZE, RSA_OAEP_BLOCK_SIZE]
      omega
    have ih := decrypt_chunks_map_encrypt n (m.drop RSA_OAEP_CHUNK_SIZE)
    simp only [decrypt_chunks, decrypt_encrypt_block n _ htake, ih]
    rw [List.take_append_drop]
termination_by m.length
decreasing_by
  simp only [List.length_drop, RSA_OAEP_CHUNK_SIZE]
  have : 0 < m.length := List.length_pos.mpr h
  omega

theorem rsa_oaep_roundtrip (n : Nat) (m : List Nat) :
    decrypt_via_rsa_oaep n (encrypt_via_rsa_oaep n m) = .ok m := by
  unfold decrypt_via_rsa_oaep encrypt_via_rsa_oaep
  exact decrypt_chunks_map_encrypt n m

/-- C1: round-trip at the escrow boundary — encrypting a message that fits the
RSA-OAEP block size under the public key returned by
`EscrowApi.get_public_key (uid, RSA)` and handing the cipherdict to
`EscrowApi.decrypt_with_private_key (uid, RSA, RSA_OAEP)` returns exactly the
message (and performs no further state change). -/
theorem claim_C1_escrow_roundtrip (st st1 : EscrowState) (uid : Nat)
    (m pem : List Nat) (n : Nat)
    (hwf : WellFormed st.key_storage)
    (hm : m.length ≤ RSA_OAEP_CHUNK_SIZE)
    (h1 : EscrowApi.get_public_key st uid "RSA" = (st1, .ok (some pem)))
    (h2 : load_asymmetric_key_from_pem_bytestring pem = some (.publicKey n)) :
    EscrowApi.decrypt_with_private_key st1 uid "RSA" "RSA_OAEP"
      (encrypt_via_rsa_oaep n m) = (st1, .ok m) := by
  obtain ⟨k, hpk, hget, hwf1⟩ :=
    api_get_public_key_ok_spec st st1 uid "RSA" (some pem) hwf h1
  have hpem : pem = [1, k] := Option.some.inj hpk
  subst hpem
  have hk : k = n := by
    have h4 : (some (AsymKey.publicKey k) : Option AsymKey) = some (.publicKey n) := h2
    exact AsymKey.publicKey.inj (Option.some.inj h4)
  subst hk
  unfold EscrowApi.decrypt_with_private_key
  rw [if_neg (by decide), if_neg (by decide)]
  rw [ensure_keypair_exists_of_truthy st1 uid "RSA" ⟨[1, k], [2, k]⟩ hget (by simp)]
  have hpriv : st1.key_storage.get_private_key uid "RSA" = some [2, k] := by
    simp [DummyKeyStorage.get_private_key, hget]
  simp only [hpriv, load_asymmetric_key_from_pem_bytestring, rsa_oaep_roundtrip]

theorem claim_C1_witness :
    WellFormed initialState.key_storage ∧
    ([5, 6, 7] : List Nat).length ≤ RSA_OAEP_CHUNK_SIZE ∧
    (EscrowApi.get_public_key initialState 7 "RSA" =
      (⟨⟨[((7, "RSA"), ⟨[1, 0], [2, 0]⟩)]⟩, 1⟩, .ok (some [1, 0]))) ∧
    (load_asymmetric_key_from_pem_bytestring [1, 0] = some (.publicKey 0)) ∧
    EscrowApi.decrypt_with_private_key ⟨⟨[((7, "RSA"), ⟨[1, 0], [2, 0]⟩)]⟩, 1⟩
        7 "RSA" "RSA_OAEP" (encrypt_via_rsa_oaep 0 [5, 6, 7]) =
      (⟨⟨[((7, "RSA"), ⟨[1, 0], [2, 0]⟩)]⟩, 1⟩, .ok [5, 6, 7]) :=
  by
  refine ⟨fun uid kt kp h => (nomatch h), by decide, by decide, by decide, ?_⟩
  exact claim_C1_escrow_roundtrip initialState _ 7 [5, 6, 7] [1, 0] 0
    (fun uid kt kp h => nomatch h) (by decide) (by decide) (by decide)

/-- A block accepted by `decrypt_block` has exactly the RSA block size. -/
theorem decrypt_block_ok_length (n : Nat) (b m : List Nat)
    (h : decrypt_block n b = .ok m) : b.length = RSA_OAEP_BLOCK_SIZE := by
  by_cases hlen : b.length = RSA_OAEP_BLOCK_SIZE
  · exact hlen
  · exfalso
    unfold decrypt_block at h
    rw [if_pos hlen] at h
    cases h

/-- Every chunk of a successfully decrypted `digest_list` has the RSA block
size. -/
theorem decrypt_chunks_ok_all_block_size (n : Nat) (l : List (List Nat))
    (out : List Nat) (h : decrypt_chunks n l = .ok out) :
    ∀ c ∈ l, c.length = RSA_OAEP_BLOCK_SIZE := by
  induction l generalizing out with
  | nil => intro c hc; cases hc
  | cons b bs ih =>
      intro c hc
      simp only [decrypt_chunks] at h
      cases hb : decrypt_block n b with
      | error e => simp [hb] at h
      | ok m1 =>
          rw [hb] at h
          cases hrest : decrypt_chunks n bs with
          | error e => simp [hrest] at h
          | ok ms2 =>
              rcases List.mem_cons.mp hc with rfl | hc2
              · exact decrypt_block_ok_length n c m1 hb
              · exact ih ms2 hrest c hc2

/-- Appending a chunk of the wrong encoded length after blocks that decrypt
successfully makes the whole decryption fail with the length-mismatch
error. -/
theorem decrypt_chunks_ok_append_bad (n : Nat) (good : List (List Nat))
    (ms bad : List Nat) (rest : List (List Nat))
    (h : decrypt_chunks n good = .ok ms)
    (hbad : bad.length ≠ RSA_OAEP_BLOCK_SIZE) :
    decrypt_chunks n (good ++ bad :: rest) =
      .error (.decryptionError "Ciphertext with incorrect length") := by
  induction good generalizing ms with
  | nil =>
      simp only [List.nil_append, decrypt_chunks]
      unfold decrypt_block
      rw [if_pos hbad]
  | cons b bs ih =>
      simp only [List.cons_append, decrypt_chunks] at h ⊢
      cases hb : decrypt_block n b with
      | error e => simp [hb] at h
      | ok m1 =>
          simp only [hb] at h ⊢
          cases hrest : decrypt_chunks n bs with
          | error e => simp [hrest] at h
          | ok ms2 =>
              simp only [List.append_eq]
              rw [ih ms2 hrest]

/-- C7: length-mismatch integrity failure — a cipherdict obtained from a valid
RSA-OAEP encryption with a malformed chunk of the wrong encoded length
appended (followed by anything) makes `decrypt_with_private_key` fail with the
"Ciphertext with incorrect length" error; and in general no cipherdict
containing a chunk of the wrong encoded length ever decrypts to a
plaintext. -/
theorem claim_C7_length_mismatch (st st1 : EscrowState) (uid : Nat)
    (m pem : List Nat) (n : Nat) (bad : List Nat) (rest : List (List Nat))
    (hwf : WellFormed st.key_storage)
    (h1 : EscrowApi.get_public_key st uid "RSA" = (st1, .ok (some pem)))
    (h2 : load_asymmetric_key_from_pem_bytestring pem = some (.publicKey n))
    (hbad : bad.length ≠ RSA_OAEP_BLOCK_SIZE) :
    EscrowApi.decrypt_with_private_key st1 uid "RSA" "RSA_OAEP"
        ⟨(encrypt_via_rsa_oaep n m).digest_list ++ bad :: rest⟩ =
      (st1, .error (.decryptionError "Ciphertext with incorrect length")) ∧
    ∀ k cd out, (∃ c ∈ cd.digest_list, c.length ≠ RSA_OAEP_BLOCK_SIZE) →
      decrypt_via_rsa_oaep k cd ≠ .ok out := by
  constructor
  · obtain ⟨k, hpk, hget, hwf1⟩ :=
      api_get_public_key_ok_spec st st1 uid "RSA" (some pem) hwf h1
    have hpem : pem = [1, k] := Option.some.inj hpk
    subst hpem
    have hk : k = n := by
      have h4 : (some (AsymKey.publicKey k) : Option AsymKey) =
          some (.publicKey n) := h2
      exact AsymKey.publicKey.inj (Option.some.inj h4)
    subst hk
    have hdec : decrypt_via_rsa_oaep k
        ⟨(encrypt_via_rsa_oaep k m).digest_list ++ bad :: rest⟩ =
        .error (.decryptionError "Ciphertext with incorrect length") := by
      unfold decrypt_via_rsa_oaep
      exact decrypt_chunks_ok_append_bad k _ m bad rest
        (decrypt_chunks_map_encrypt k m) hbad
    unfold EscrowApi.decrypt_with_private_key
    rw [if_neg (by decide), if_neg (by decide)]
    rw [ensure_keypair_exists_of_truthy st1 uid "RSA" ⟨[1, k], [2, k]⟩ hget (by simp)]
    have hpriv : st1.key_storage.get_private_key uid "RSA" = some [2, k] := by
      simp [DummyKeyStorage.get_private_key, hget]
    simp only [hpriv, load_asymmetric_key_from_pem_bytestring, hdec]
  · intro k cd out hex hok
    obtain ⟨c, hc, hlen⟩ := hex
    exact hlen (decrypt_chunks_ok_all_block_size k cd.digest_list out hok c hc)

theorem claim_C7_witness :
    WellFormed initialState.key_storage ∧
    (EscrowApi.get_public_key initialState 7 "RSA" =
      (⟨⟨[((7, "RSA"), ⟨[1, 0], [2, 0]⟩)]⟩, 1⟩, .ok (some [1, 0]))) ∧
    (load_asymmetric_key_from_pem_bytestring [1, 0] = some (.publicKey 0)) ∧
    ([9, 9, 9] : List Nat).length ≠ RSA_OAEP_BLOCK_SIZE ∧
    EscrowApi.decrypt_with_private_key ⟨⟨[((7, "RSA"), ⟨[1, 0], [2, 0]⟩)]⟩, 1⟩
        7 "RSA" "RSA_OAEP"
        ⟨(encrypt_via_rsa_oaep 0 [5]).digest_list ++ [9, 9, 9] :: []⟩ =
      (⟨⟨[((7, "RSA"), ⟨[1, 0], [2, 0]⟩)]⟩, 1⟩,
        .error (.decryptionError "Ciphertext with incorrect length")) := by
  refine ⟨fun uid kt kp h => (nomatch h), by decide, by decide, by decide, ?_⟩
  exact (claim_C7_length_mismatch initialState _ 7 [5] [1, 0] 0 [9, 9, 9] []
    (fun uid kt kp h => (nomatch h)) (by decide) (by decide) (by decide)).1

/-- Successful `EscrowApi.get_message_signature` on a well-formed state: the
resulting state stores the matching generated keypair for the pair and the
returned signature is `sign_message` under its private counter. -/
theorem api_get_message_signature_ok_spec (st st1 : EscrowState) (uid : Nat)
    (msg : List Nat) (kt algo : String) (sig : SignatureDict)
    (hwf : WellFormed st.key_storage)
    (h : EscrowApi.get_message_signature st uid msg kt algo = (st1, .ok sig)) :
    ∃ k, st1.key_storage.get_keypair uid kt = some ⟨[1, k], [2, k]⟩ ∧
      sig = sign_message msg algo k := by
  unfold EscrowApi.get_message_signature at h
  cases he : EscrowApi.ensure_keypair_exists st uid kt with
  | mk st2 eopt =>
      rw [he] at h
      cases eopt with
      | some e => simp at h
      | none =>
          have hwf2 : WellFormed st2.key_storage :=
            wellFormed_after_ensure st st2 uid kt hwf he
          obtain ⟨kp, hget, hne, -⟩ := ensure_keypair_exists_ok_spec st st2 uid kt he
          obtain ⟨k, hpub, hpriv⟩ := hwf2 uid kt kp hget
          have hkp : kp = ⟨[1, k], [2, k]⟩ := by
            cases kp
            simp only at hpub hpriv
            rw [hpub, hpriv]
          subst hkp
          have hpk : st2.key_storage.get_private_key uid kt = some [2, k] := by
            simp [DummyKeyStorage.get_private_key, hget]
          simp only [hpk, load_asymmetric_key_from_pem_bytestring,
            Prod.mk.injEq, Except.ok.injEq] at h
          obtain ⟨h1, h2⟩ := h
          subst h1
          exact ⟨k, hget, h2.symm⟩

/-- C8: signature tamper detection — a signature structure returned by
`EscrowApi.get_message_signature` verifies against the message under the
public key of the escrow, and appending any non-empty bytes to its digest makes
verification fail with the "Incorrect signature" error. -/
theorem claim_C8_signature_tamper (st st1 : EscrowState) (uid : Nat)
    (msg : List Nat) (algo : String) (sig : SignatureDict) (pem : List Nat)
    (n : Nat) (hwf : WellFormed st.key_storage)
    (h1 : EscrowApi.get_message_signature st uid msg "RSA" algo = (st1, .ok sig))
    (h2 : st1.key_storage.get_public_key uid "RSA" = some pem)
    (h3 : load_asymmetric_key_from_pem_bytestring pem = some (.publicKey n)) :
    verify_message_signature msg sig n algo = .ok () ∧
    ∀ extra, extra ≠ [] →
      verify_message_signature msg ⟨sig.digest ++ extra⟩ n algo =
        .error .incorrectSignature := by
  obtain ⟨k, hget, hsig⟩ :=
    api_get_message_signature_ok_spec st st1 uid msg "RSA" algo sig hwf h1
  have hpem : pem = [1, k] := by
    simp only [DummyKeyStorage.get_public_key, hget, Option.map_some] at h2
    exact (Option.some.inj h2).symm
  subst hpem
  have hk : k = n := by
    have h4 : (some (AsymKey.publicKey k) : Option AsymKey) =
        some (.publicKey n) := h3
    exact AsymKey.publicKey.inj (Option.some.inj h4)
  subst hk
  subst hsig
  constructor
  · unfold verify_message_signature sign_message
    rw [if_pos rfl]
  · intro extra hextra
    have hne : (sign_message msg algo k).digest ++ extra ≠
        k :: algo.length :: msg := by
      intro heq
      have hlen := congrArg List.length heq
      simp only [sign_message, List.length_append, List.length_cons] at hlen
      have : extra.length = 0 := by omega
      exact hextra (List.length_eq_zero.mp this)
    unfold verify_message_signature
    rw [if_neg hne]

theorem claim_C8_witness :
    WellFormed initialState.key_storage ∧
    (EscrowApi.get_message_signature initialState 7 [1, 2, 3] "RSA" "PSS" =
      (⟨⟨[((7, "RSA"), ⟨[1, 0], [2, 0]⟩)]⟩, 1⟩, .ok ⟨[0, 3, 1, 2, 3]⟩)) ∧
    (DummyKeyStorage.get_public_key ⟨[((7, "RSA"), ⟨[1, 0], [2, 0]⟩)]⟩ 7 "RSA" =
      some [1, 0]) ∧
    (load_asymmetric_key_from_pem_bytestring [1, 0] = some (.publicKey 0)) ∧
    (verify_message_signature [1, 2, 3] ⟨[0, 3, 1, 2, 3]⟩ 0 "PSS" = .ok () ∧
      ∀ extra, extra ≠ [] →
        verify_message_signature [1, 2, 3] ⟨[0, 3, 1, 2, 3] ++ extra⟩ 0 "PSS" =
          .error .incorrectSignature) := by
  refine ⟨fun uid kt kp h => (nomatch h), by decide, by decide, by decide, ?_⟩
  exact claim_C8_signature_tamper initialState
    ⟨⟨[((7, "RSA"), ⟨[1, 0], [2, 0]⟩)]⟩, 1⟩ 7 [1, 2, 3] "PSS"
    ⟨[0, 3, 1, 2, 3]⟩ [1, 0] 0 (fun uid kt kp h => (nomatch h))
    (by decide) (by decide) (by decide)

/-! ### Reachable states: at-most-one-keypair invariant -/

theorem assocGet_eq_none_iff (l : List ((Nat × String) × KeyPair))
    (key : Nat × String) : assocGet l key = none ↔ key ∉ l.map Prod.fst := by
  induction l with
  | nil => simp [assocGet]
  | cons p rest ih =>
      obtain ⟨k, v⟩ := p
      by_cases hk : k = key
      · subst hk
        simp [assocGet]
      · simp [assocGet, hk, ih, Ne.symm hk]

theorem set_keys_preserves_get_keypair (s s1 : DummyKeyStorage) (uid2 : Nat)
    (kt2 : String) (pub priv : List Nat) (uid : Nat) (kt : String)
    (kp : KeyPair) (hset : s.set_keys uid2 kt2 pub priv = .ok s1)
    (h : s.get_keypair uid kt = some kp) :
    s1.get_keypair uid kt = some kp := by
  obtain ⟨hnone, rfl⟩ := (set_keys_ok_iff s s1 uid2 kt2 pub priv).mp hset
  by_cases hk : ((uid2, kt2) : Nat × String) = (uid, kt)
  · exfalso
    have h0 : s.get_keypair uid kt = none := by
      unfold DummyKeyStorage.get_keypair at hnone ⊢
      rw [← hk]
      exact hnone
    rw [h0] at h
    cases h
  · unfold DummyKeyStorage.get_keypair
    exact (assocGet_cons_ne _ _ _ _ hk).trans h

theorem ensure_preserves_get_keypair (st : EscrowState) (uid2 : Nat)
    (kt2 : String) (uid : Nat) (kt : String) (kp : KeyPair)
    (h : st.key_storage.get_keypair uid kt = some kp) :
    ((EscrowApi.ensure_keypair_exists st uid2 kt2).1).key_storage.get_keypair
      uid kt = some kp := by
  rcases ensure_keypair_exists_cases st uid2 kt2 with
    ⟨kp2, -, -, he⟩ | ⟨hnone, he⟩ | ⟨kp2, -, -, he⟩
  · rw [he]; exact h
  · rw [he]
    by_cases hk : ((uid2, kt2) : Nat × String) = (uid, kt)
    · exfalso
      have h0 : st.key_storage.get_keypair uid kt = none := by
        unfold DummyKeyStorage.get_keypair at hnone ⊢
        rw [← hk]
        exact hnone
      rw [h0] at h
      cases h
    · unfold DummyKeyStorage.get_keypair
      exact (assocGet_cons_ne _ _ _ _ hk).trans h
  · rw [he]; exact h

theorem api_get_public_key_fst (st : EscrowState) (uid : Nat) (kt : String) :
    (EscrowApi.get_public_key st uid kt).1 =
      (EscrowApi.ensure_keypair_exists st uid kt).1 := by
  unfold EscrowApi.get_public_key
  split <;> rename_i heq <;> rw [heq]

theorem api_get_message_signature_fst (st : EscrowState) (uid : Nat)
    (msg : List Nat) (kt algo : String) :
    (EscrowApi.get_message_signature st uid msg kt algo).1 =
      (EscrowApi.ensure_keypair_exists st uid kt).1 := by
  unfold EscrowApi.get_message_signature
  split
  · rename_i heq
    rw [heq]
  · rename_i heq
    split
    · rw [heq]
    · split <;> rw [heq]

theorem api_decrypt_fst (st : EscrowState) (uid : Nat) (kt algo : String)
    (cd : CipherDict) :
    (EscrowApi.decrypt_with_private_key st uid kt algo cd).1 = st ∨
    (EscrowApi.decrypt_with_private_key st uid kt algo cd).1 =
      (EscrowApi.ensure_keypair_exists st uid kt).1 := by
  unfold EscrowApi.decrypt_with_private_key
  split
  · exact Or.inl rfl
  · split
    · exact Or.inl rfl
    · refine Or.inr ?_
      split
      · rename_i heq
        rw [heq]
      · rename_i heq
        split <;> (try split) <;> (try split) <;> rw [heq]

theorem runOp_preserves_get_keypair (st : EscrowState) (op : EscrowOp)
    (uid : Nat) (kt : String) (kp : KeyPair)
    (h : st.key_storage.get_keypair uid kt = some kp) :
    (runOp st op).key_storage.get_keypair uid kt = some kp := by
  cases op with
  | setKeys uid2 kt2 pub priv =>
      simp only [runOp]
      cases hset : st.key_storage.set_keys uid2 kt2 pub priv with
      | ok s1 =>
          exact set_keys_preserves_get_keypair st.key_storage s1 uid2 kt2
            pub priv uid kt kp hset h
      | error e => exact h
  | getPublicKey uid2 kt2 => exact h
  | getPrivateKey uid2 kt2 => exact h
  | apiGetPublicKey uid2 kt2 =>
      simp only [runOp, api_get_public_key_fst]
      exact ensure_preserves_get_keypair st uid2 kt2 uid kt kp h
  | apiGetMessageSignature uid2 msg kt2 algo =>
      simp only [runOp, api_get_message_signature_fst]
      exact ensure_preserves_get_keypair st uid2 kt2 uid kt kp h
  | apiDecryptWithPrivateKey uid2 kt2 algo cd =>
      simp only [runOp]
      rcases api_decrypt_fst st uid2 kt2 algo cd with hfst | hfst
      · rw [hfst]; exact h
      · rw [hfst]
        exact ensure_preserves_get_keypair st uid2 kt2 uid kt kp h

theorem runOps_preserves_get_keypair (st : EscrowState) (ops : List EscrowOp)
    (uid : Nat) (kt : String) (kp : KeyPair)
    (h : st.key_storage.get_keypair uid kt = some kp) :
    (runOps st ops).key_storage.get_keypair uid kt = some kp := by
  induction ops generalizing st with
  | nil => exact h
  | cons op ops ih =>
      exact ih (runOp st op) (runOp_preserves_get_keypair st op uid kt kp h)

theorem ensure_preserves_nodup (st : EscrowState) (uid : Nat) (kt : String)
    (h : KeysNodup st.key_storage) :
    KeysNodup ((EscrowApi.ensure_keypair_exists st uid kt).1).key_storage := by
  rcases ensure_keypair_exists_cases st uid kt with
    ⟨kp2, -, -, he⟩ | ⟨hnone, he⟩ | ⟨kp2, -, -, he⟩
  · rw [he]; exact h
  · rw [he]
    unfold KeysNodup at h ⊢
    simp only [List.map_cons]
    rw [List.nodup_cons]
    exact ⟨(assocGet_eq_none_iff _ _).mp hnone, h⟩
  · rw [he]; exact h

theorem runOp_preserves_nodup (st : EscrowState) (op : EscrowOp)
    (h : KeysNodup st.key_storage) : KeysNodup (runOp st op).key_storage := by
  cases op with
  | setKeys uid2 kt2 pub priv =>
      simp only [runOp]
      cases hset : st.key_storage.set_keys uid2 kt2 pub priv with
      | ok s1 =>
          obtain ⟨hnone, rfl⟩ :=
            (set_keys_ok_iff st.key_storage s1 uid2 kt2 pub priv).mp hset
          unfold KeysNodup at h ⊢
          simp only [List.map_cons]
          rw [List.nodup_cons]
          exact ⟨(assocGet_eq_none_iff _ _).mp hnone, h⟩
      | error e => exact h
  | getPublicKey uid2 kt2 => exact h
  | getPrivateKey uid2 kt2 => exact h
  | apiGetPublicKey uid2 kt2 =>
      simp only [runOp, api_get_public_key_fst]
      exact ensure_preserves_nodup st uid2 kt2 h
  | apiGetMessageSignature uid2 msg kt2 algo =>
      simp only [runOp, api_get_message_signature_fst]
      exact ensure_preserves_nodup st uid2 kt2 h
  | apiDecryptWithPrivateKey uid2 kt2 algo cd =>
      simp only [runOp]
      rcases api_decrypt_fst st uid2 kt2 algo cd with hfst | hfst
      · rw [hfst]; exact h
      · rw [hfst]
        exact ensure_preserves_nodup st uid2 kt2 h

theorem runOps_preserves_nodup (st : EscrowState) (ops : List EscrowOp)
    (h : KeysNodup st.key_storage) : KeysNodup (runOps st ops).key_storage := by
  induction ops generalizing st with
  | nil => exact h
  | cons op ops ih => exact ih (runOp st op) (runOp_preserves_nodup st op h)

/-- C9: at-most-one-keypair invariant — in every state reachable from the
empty storage by any sequence of storage and escrow operations, each
`(keychain_uid, key_type)` has at most one cached keypair, and once a keypair
is stored for a pair no later sequence of operations (failing `set_keys`
included) ever changes or removes its stored bytes. -/
theorem claim_C9_at_most_one_keypair (ops : List EscrowOp) :
    KeysNodup (runOps initialState ops).key_storage ∧
    ∀ moreOps uid kt kp,
      (runOps initialState ops).key_storage.get_keypair uid kt = some kp →
      (runOps (runOps initialState ops) moreOps).key_storage.get_keypair
        uid kt = some kp := by
  constructor
  · exact runOps_preserves_nodup initialState ops
      (by simp [KeysNodup, initialState])
  · intro moreOps uid kt kp h
    exact runOps_preserves_get_keypair _ moreOps uid kt kp h

theorem claim_C9_witness :
    KeysNodup (runOps initialState
      [EscrowOp.setKeys 4 "RSA" [8] [9],
        EscrowOp.apiGetPublicKey 4 "RSA"]).key_storage ∧
    (runOps initialState
        [EscrowOp.setKeys 4 "RSA" [8] [9],
          EscrowOp.apiGetPublicKey 4 "RSA"]).key_storage.get_keypair 4 "RSA" =
      some ⟨[8], [9]⟩ ∧
    (runOps (runOps initialState
        [EscrowOp.setKeys 4 "RSA" [8] [9], EscrowOp.apiGetPublicKey 4 "RSA"])
        [EscrowOp.setKeys 4 "RSA" [7] [7],
          EscrowOp.apiGetPublicKey 4 "RSA"]).key_storage.get_keypair 4 "RSA" =
      some ⟨[8], [9]⟩ := by
  refine ⟨(claim_C9_at_most_one_keypair
    [EscrowOp.setKeys 4 "RSA" [8] [9], EscrowOp.apiGetPublicKey 4 "RSA"]).1,
    by decide, ?_⟩
  exact (claim_C9_at_most_one_keypair
    [EscrowOp.setKeys 4 "RSA" [8] [9], EscrowOp.apiGetPublicKey 4 "RSA"]).2
    [EscrowOp.setKeys 4 "RSA" [7] [7], EscrowOp.apiGetPublicKey 4 "RSA"]
    4 "RSA" ⟨[8], [9]⟩ (by decide)

/-- C4: write-once key storage — on a pair with no stored keypair, the first
`set_keys` succeeds, and afterwards every later `set_keys` for the same pair
(immediately, or after any further sequence of storage and escrow operations,
and with any key bytes, identical ones included) fails with the
already-exists error. -/
theorem claim_C4_write_once (s : DummyKeyStorage) (uid : Nat) (kt : String)
    (pub priv : List Nat) (h : s.get_keypair uid kt = none) :
    ∃ s1, s.set_keys uid kt pub priv = .ok s1 ∧
      (∀ pub2 priv2, s1.set_keys uid kt pub2 priv2 =
        .error (.alreadyExists uid kt)) ∧
      ∀ (r : Nat) (ops : List EscrowOp) (pub2 priv2 : List Nat),
        ((runOps ⟨s1, r⟩ ops).key_storage).set_keys uid kt pub2 priv2 =
          .error (.alreadyExists uid kt) := by
  refine ⟨⟨((uid, kt), ⟨pub, priv⟩) :: s.cached_keypairs⟩, ?_, ?_, ?_⟩
  · rw [set_keys_ok_iff]
    exact ⟨h, rfl⟩
  · intro pub2 priv2
    apply set_keys_error_of_isSome
    simp [DummyKeyStorage.get_keypair, assocGet_cons_self]
  · intro r ops pub2 priv2
    apply set_keys_error_of_isSome
    have h0 : (⟨⟨((uid, kt), ⟨pub, priv⟩) :: s.cached_keypairs⟩, r⟩ :
        EscrowState).key_storage.get_keypair uid kt = some ⟨pub, priv⟩ :=
      assocGet_cons_self _ _ _
    have h1 := runOps_preserves_get_keypair
      ⟨⟨((uid, kt), ⟨pub, priv⟩) :: s.cached_keypairs⟩, r⟩ ops uid kt
      ⟨pub, priv⟩ h0
    simp [h1]

theorem claim_C4_witness :
    (DummyKeyStorage.get_keypair ⟨[]⟩ 0 "RSA" = none) ∧
    (∃ s1, DummyKeyStorage.set_keys ⟨[]⟩ 0 "RSA" [3] [4] = .ok s1 ∧
      (∀ pub2 priv2, s1.set_keys 0 "RSA" pub2 priv2 =
        .error (.alreadyExists 0 "RSA")) ∧
      ∀ (r : Nat) (ops : List EscrowOp) (pub2 priv2 : List Nat),
        ((runOps ⟨s1, r⟩ ops).key_storage).set_keys 0 "RSA" pub2 priv2 =
          .error (.alreadyExists 0 "RSA")) :=
  ⟨rfl, claim_C4_write_once ⟨[]⟩ 0 "RSA" [3] [4] rfl⟩
